import Mathlib

/-!
Shallow embedding of `packages/wdio-browserstack-service/src/Percy/Percy.ts`.

The Percy class supervises a helper binary: `start()` fetches a token from the
BrowserStack API, optionally writes a JSON config file, spawns the binary and
polls a local health endpoint until it succeeds or the process exits.  External
collaborators (the HTTP client `nodeRequest`, the filesystem, the spawned
process) are modelled as oracle parameters; JavaScript dynamic values are
modelled by an explicit JSON-with-undefined value type with JS truthiness and
property-access semantics.
-/

namespace PercyModel

/-- JavaScript runtime values as they flow through Percy.ts: JSON values plus
`undefined` (distinct from `null`). -/
inductive JSVal where
  | null : JSVal
  | undefined : JSVal
  | bool : Bool → JSVal
  | num : Int → JSVal
  | str : String → JSVal
  | arr : List JSVal → JSVal
  | obj : List (String × JSVal) → JSVal

/-- JavaScript truthiness: `null`, `undefined`, `false`, `0` and `""` are
falsy; objects and arrays are always truthy. -/
def JSVal.truthy : JSVal → Bool
  | .null => false
  | .undefined => false
  | .bool b => b
  | .num n => decide (n ≠ 0)
  | .str s => decide (s ≠ "")
  | .arr _ => true
  | .obj _ => true

/-- String content of a JS string value (the `as string` cast in `start()`:
only applied to the config path, which is a string when truthy). -/
def JSVal.asString : JSVal → String
  | .str s => s
  | _ => ""

/-- Read a field from the field list of a JS object; a missing key reads as
`undefined`, as in JavaScript. -/
def lookupD (fs : List (String × JSVal)) (k : String) : JSVal :=
  match fs.lookup k with
  | some v => v
  | none => .undefined

/-- JavaScript property read `v[k]`: throws a TypeError on `null`/`undefined`
(modelled as `Except.error`), reads the field of an object (missing key gives
`undefined`), and gives `undefined` on every other primitive. -/
def getProp : JSVal → String → Except Unit JSVal
  | .null, _ => .error ()
  | .undefined, _ => .error ()
  | .obj fs, k => .ok (lookupD fs k)
  | _, _ => .ok .undefined

/-- JavaScript property write `o[k] = v` on an object's field list: updates an
existing key in place (keeping its position) or appends a new one. -/
def setField : List (String × JSVal) → String → JSVal → List (String × JSVal)
  | [], k, v => [(k, v)]
  | (k', v') :: rest, k, v =>
      if k' = k then (k, v) :: rest else (k', v') :: setField rest k v

mutual
/-- Model of `JSON.parse (JSON.stringify v)`: `undefined` does not survive
serialization (`none`); inside arrays it becomes `null`, inside objects the
field is dropped. -/
def jsonRT : JSVal → Option JSVal
  | .null => some .null
  | .undefined => none
  | .bool b => some (.bool b)
  | .num n => some (.num n)
  | .str s => some (.str s)
  | .arr xs => some (.arr (jsonRTArr xs))
  | .obj fs => some (.obj (jsonRTObj fs))

/-- Round-trip of an array's elements: elements that do not serialize become
`null`. -/
def jsonRTArr : List JSVal → List JSVal
  | [] => []
  | x :: xs => ((jsonRT x).getD .null) :: jsonRTArr xs

/-- Round-trip of an object's fields: fields whose value does not serialize
are dropped. -/
def jsonRTObj : List (String × JSVal) → List (String × JSVal)
  | [] => []
  | (k, v) :: fs =>
      match jsonRT v with
      | some v' => (k, v') :: jsonRTObj fs
      | none => jsonRTObj fs
end

/-- The constructor options that Percy.ts reads
(`app`, `percyCaptureMode`, `percy`, `percyOptions`).  `percyOptions` has an
object type in TS, so it is an optional field list here. -/
structure CtorOptions where
  app : JSVal
  percyCaptureMode : Option String
  percy : Option Bool
  percyOptions : Option (List (String × JSVal))

/-- The mutable instance state of a `Percy` object. -/
structure PercyState where
  options : CtorOptions
  isApp : Bool
  projectName : Option String
  isProcessRunning : Bool
  percyCaptureMode : JSVal
  buildId : JSVal
  percyAutoEnabled : JSVal
  percy : JSVal

/-- The `Percy` constructor: `_isApp = Boolean(options.app)`,
`percyCaptureMode = options.percyCaptureMode`, `buildId = null`,
`percyAutoEnabled = false`, `percy = options.percy ?? false`,
`isProcessRunning = false` (field initializer). -/
def Percy.init (opts : CtorOptions) (projectName : Option String) : PercyState :=
  { options := opts
    isApp := opts.app.truthy
    projectName := projectName
    isProcessRunning := false
    percyCaptureMode :=
      match opts.percyCaptureMode with
      | some s => .str s
      | none => .undefined
    buildId := .null
    percyAutoEnabled := .bool false
    percy := .bool (opts.percy.getD false) }

/-- Model of `isRunning()`: pure read of the running flag. -/
def isRunning (st : PercyState) : Bool := st.isProcessRunning

/-- Model of `healthcheck()`: one GET to the local endpoint (its outcome is the oracle
`resp`: `error` = the request rejected).  Inside the `try`: if the resolved
body is truthy, `this.buildId = resp.build.id` (property access may throw a
TypeError, caught by the `catch` which returns `false`) and return `true`.  A
falsy resolved body falls off the end of the function: JS returns `undefined`. -/
def healthcheck (resp : Except Unit JSVal) (st : PercyState) : JSVal × PercyState :=
  match resp with
  | .error _ => (.bool false, st)
  | .ok v =>
      if v.truthy then
        match getProp v "build" with
        | .error _ => (.bool false, st)
        | .ok b =>
            match getProp b "id" with
            | .error _ => (.bool false, st)
            | .ok idv => (.bool true, { st with buildId := idv })
      else (.undefined, st)

/-- The return value of `healthcheck` does not depend on the state. -/
def hcRet (resp : Except Unit JSVal) : JSVal :=
  match resp with
  | .error _ => .bool false
  | .ok v =>
      if v.truthy then
        match getProp v "build" with
        | .error _ => .bool false
        | .ok b =>
            match getProp b "id" with
            | .error _ => .bool false
            | .ok _ => .bool true
      else .undefined

/-- The build id recorded by a successful `healthcheck` on response `resp`
(`none` when the health check does not succeed). -/
def buildIdOf (resp : Except Unit JSVal) : Option JSVal :=
  match resp with
  | .error _ => none
  | .ok v =>
      if v.truthy then
        match getProp v "build" with
        | .error _ => none
        | .ok b =>
            match getProp b "id" with
            | .error _ => none
            | .ok idv => some idv
      else none

/-- The query string built by `fetchPercyToken` (name, type, capture mode,
enablement flag); sent to the vendor endpoint, whose outcome is an oracle. -/
def tokenQuery (st : PercyState) : String :=
  let q0 := "api/app_percy/get_project_token?"
  let q1 :=
    match st.projectName with
    | some n => if n ≠ "" then q0 ++ "name=" ++ n ++ "&" else q0
    | none => q0
  let q2 := q1 ++ "type=" ++ (if st.isApp then "app" else "automate") ++ "&"
  let q3 :=
    match st.options.percyCaptureMode with
    | some m => if m ≠ "" then q2 ++ "percy_capture_mode=" ++ m ++ "&" else q2
    | none => q2
  q3 ++ "percy=" ++ (if st.options.percy.getD false then "true" else "false")

/-- Model of `fetchPercyToken()`: the whole body sits in a `try`.  A rejected request,
or a TypeError reading `response.token` in the debug line (response resolved to
`null`/`undefined`), is caught and returns `null`.  Otherwise:
`if (!this._options.percy && response.success) percyAutoEnabled = response.success`;
`percyCaptureMode = response.percy_capture_mode`; `percy = response.success`;
return `response.token`. -/
def fetchPercyToken (resp : Except Unit JSVal) (st : PercyState) : JSVal × PercyState :=
  match resp with
  | .error _ => (.null, st)
  | .ok r =>
      match getProp r "token" with
      | .error _ => (.null, st)
      | .ok tok =>
          let success := (getProp r "success").toOption.getD .undefined
          let captureMode := (getProp r "percy_capture_mode").toOption.getD .undefined
          let st1 :=
            if !(st.options.percy.getD false) && success.truthy then
              { st with percyAutoEnabled := success }
            else st
          (tok, { st1 with percyCaptureMode := captureMode, percy := success })

/-- The fixed config path `path.join(os.tmpdir(), 'percy.json')`. -/
def percyConfigPath (tmpdir : String) : String := tmpdir ++ "/percy.json"

/-- Model of `createPercyConfig()`: returns `null` when `this._options.percyOptions` is
absent.  Otherwise mutates that very object — `if (!percyOptions.version)
percyOptions.version = '2'` (a truthiness test, not a presence test) — then
writes `JSON.stringify(percyOptions)` to the fixed temp path and resolves the
path, or resolves `null` when the write callback reports an error.  Result:
(resolved value, parse of the written file if one was written, new state). -/
def createPercyConfig (writeFails : Bool) (tmpdir : String) (st : PercyState) :
    JSVal × Option JSVal × PercyState :=
  match st.options.percyOptions with
  | none => (.null, none, st)
  | some fs =>
      let fs' := if (lookupD fs "version").truthy then fs
                 else setField fs "version" (.str "2")
      let st' := { st with options := { st.options with percyOptions := some fs' } }
      if writeFails then (.null, none, st')
      else (.str (percyConfigPath tmpdir), some (.obj (jsonRTObj fs')), st')

/-- The sequence of `resolve` calls made by `createPercyConfig`'s write
callback: on error it resolves `null` and then — there is no early return —
also resolves the config path. -/
def writeFileCallback (err : Bool) (configPath : String) : List JSVal :=
  (if err then [JSVal.null] else []) ++ [JSVal.str configPath]

/-- JS promise semantics: only the first `resolve` call settles the promise. -/
def promiseResult (resolves : List JSVal) : Option JSVal := resolves.head?

/-- The writers of `isProcessRunning` in Percy.ts: the assignment after
`spawn` in `start()`, the spawned process's `close` handler, and the `close`
handler of the `exec:stop` process inside `stop()`.  No other code writes the
flag. -/
inductive PercyEvent where
  | spawnStart : PercyEvent
  | procClose : PercyEvent
  | stopResolve : PercyEvent
deriving DecidableEq, Repr

/-- Effect of one writer on the running flag. -/
def applyEvent (_running : Bool) : PercyEvent → Bool
  | .spawnStart => true
  | .procClose => false
  | .stopResolve => false

/-- The running flag after a sequence of writer events. -/
def runFlag (b : Bool) (es : List PercyEvent) : Bool := es.foldl applyEvent b

/-- Model of `stop()`: spawns the binary with `exec:stop`; its `close` handler clears
the running flag and resolves with the exit code reported by the oracle. -/
def stop (exitCode : JSVal) (st : PercyState) : JSVal × PercyState :=
  (exitCode, { st with isProcessRunning := false })

/-- The arguments `stop()` spawns the binary with. -/
def stopSpawnArgs : List String := ["exec:stop"]

/-- One `spawn` call observed during `start()`: binary path, argument list,
and the `PERCY_TOKEN` value added to the inherited environment. -/
structure SpawnCall where
  cmd : String
  args : List String
  envToken : JSVal

/-- Oracle for one run of `start()`: the resolved binary path, the temp
directory, the outcome of the token request, whether the config write fails,
the outcome of the `i`-th health-check request, and — modelling the child's
asynchronous `close` event — the iteration during which the close handler
fires (`none` = the process never exits).  The handler's write is observed at
the `while` test of iteration `closeAt` and of every later iteration. -/
structure StartEnv where
  binaryPath : String
  tmpdir : String
  tokenResp : Except Unit JSVal
  writeFails : Bool
  health : Nat → Except Unit JSVal
  closeAt : Option Nat

/-- Value of the running flag at the `while` test that follows iteration `i`
of the polling loop. -/
def runningAfter (closeAt : Option Nat) (i : Nat) : Bool :=
  match closeAt with
  | none => true
  | some k => decide (i < k)

/-- Observable outcome of `start()`: the returned boolean, the spawn call if
one happened, the parse of the config file if one was written, and the final
instance state. -/
structure StartResult where
  ret : Bool
  spawned : Option SpawnCall
  configWritten : Option JSVal
  final : PercyState

/-- The `do … while (this.isProcessRunning)` loop of `start()`: run
`healthcheck()`; return `true` if its result is truthy; otherwise sleep and
repeat while the running flag is still set, else return `false`.  The loop
has no timeout, so the model is fuelled: `none` means the loop has not
terminated within `fuel` iterations. -/
def pollLoop (health : Nat → Except Unit JSVal) (closeAt : Option Nat) :
    Nat → Nat → PercyState → Option (Bool × PercyState)
  | 0, _, _ => none
  | fuel + 1, i, st =>
      let h := healthcheck (health i) st
      if h.1.truthy then some (true, h.2)
      else if runningAfter closeAt i then pollLoop health closeAt fuel (i + 1) h.2
      else some (false, { h.2 with isProcessRunning := false })

/-- Model of `start()`: resolve the binary, open the log stream, fetch the token,
create the config file, and only then test the token — `if (!token) return
false` — so the config write happens before the token check.  On a truthy
token: build `['app:exec:start'|'exec:start']` plus `['-c', configPath]` when
a config path was resolved, spawn with `PERCY_TOKEN` in the environment, set
the running flag, and enter the polling loop. -/
def start (env : StartEnv) (fuel : Nat) (st0 : PercyState) : Option StartResult :=
  let tk := fetchPercyToken env.tokenResp st0
  let cfg := createPercyConfig env.writeFails env.tmpdir tk.2
  if !tk.1.truthy then
    some { ret := false, spawned := none, configWritten := cfg.2.1, final := cfg.2.2 }
  else
    let args := [(if cfg.2.2.isApp then "app:exec" else "exec") ++ ":start"]
      ++ (if cfg.1.truthy then ["-c", cfg.1.asString] else [])
    let sc : SpawnCall := { cmd := env.binaryPath, args := args, envToken := tk.1 }
    let st3 := { cfg.2.2 with isProcessRunning := true }
    match pollLoop env.health env.closeAt fuel 0 st3 with
    | none => none
    | some (b, st4) =>
        some { ret := b, spawned := some sc, configWritten := cfg.2.1, final := st4 }

/-! Concrete sample instances used to instantiate the theorems. -/

/-- Constructor options with every Percy-related option absent. -/
def baseOpts : CtorOptions :=
  { app := .bool false, percyCaptureMode := none, percy := none, percyOptions := none }

/-- A freshly constructed instance with no options. -/
def baseState : PercyState := Percy.init baseOpts none

/-- A freshly constructed instance whose `percyOptions` is the empty object. -/
def stateWithConfig : PercyState :=
  Percy.init { baseOpts with percyOptions := some [] } none

/-- An instance whose `percyOptions` carries a falsy (empty-string) `version`. -/
def stateVerFalsy : PercyState :=
  Percy.init { baseOpts with percyOptions := some [("version", .str "")] } none

/-- An instance whose `percyOptions` carries a truthy `version`. -/
def stateVerTruthy : PercyState :=
  Percy.init { baseOpts with percyOptions := some [("version", .str "1"), ("deferUploads", .bool true)] } none

/-- A run in which the token request rejects and the process dies at once. -/
def envFail : StartEnv :=
  { binaryPath := "percy", tmpdir := "/tmp", tokenResp := .error ()
    writeFails := false, health := fun _ => .error (), closeAt := some 0 }

/-- A run with a good token but a process that exits during iteration 1 while
every health check fails. -/
def envDies : StartEnv :=
  { binaryPath := "percy", tmpdir := "/tmp"
    tokenResp := .ok (.obj [("token", .str "tok"), ("success", .bool true),
      ("percy_capture_mode", .str "auto")])
    writeFails := false, health := fun _ => .error (), closeAt := some 1 }

/-- The scenario of the spec: `app: false`, capture mode `auto`, token
endpoint answers `{ token: "t1", success: true, percy_capture_mode: "auto" }`,
and the first health check reports build id 7. -/
def envScenario : StartEnv :=
  { binaryPath := "percy", tmpdir := "/tmp"
    tokenResp := .ok (.obj [("token", .str "t1"), ("success", .bool true),
      ("percy_capture_mode", .str "auto")])
    writeFails := false
    health := fun _ => .ok (.obj [("build", .obj [("id", .num 7)])])
    closeAt := none }

/-- The state for the spec scenario. -/
def stateScenario : PercyState :=
  Percy.init { baseOpts with percyCaptureMode := some "auto" } none

/-! Helper lemmas. -/

/-- Function `healthcheck` returns `hcRet` of the response and records the build id in
`buildIdOf` when there is one. -/
theorem healthcheck_eq (resp : Except Unit JSVal) (st : PercyState) :
    healthcheck resp st =
      (hcRet resp,
        match buildIdOf resp with
        | some idv => { st with buildId := idv }
        | none => st) := by
  unfold healthcheck hcRet buildIdOf
  rcases resp with e | v
  · rfl
  · rcases hv : v.truthy
    · simp [hv]
    · rcases hb : getProp v "build" with e | b
      · simp [hv, hb]
      · rcases hi : getProp b "id" with e | idv <;> simp [hv, hb, hi]

/-- When the health check does not succeed it records no build id. -/
theorem buildIdOf_none_of_not_truthy (resp : Except Unit JSVal)
    (h : (hcRet resp).truthy = false) : buildIdOf resp = none := by
  unfold hcRet at h
  unfold buildIdOf
  rcases resp with e | v
  · rfl
  · rcases hv : v.truthy
    · simp [hv]
    · simp only [hv, if_true] at h ⊢
      rcases hb : getProp v "build" with e | b
      · simp [hb]
      · simp only [hb] at h ⊢
        rcases hi : getProp b "id" with e | idv
        · simp [hi]
        · simp only [hi] at h
          simp [JSVal.truthy] at h

/-- A non-truthy health-check result leaves the state untouched. -/
theorem healthcheck_not_truthy (resp : Except Unit JSVal) (st : PercyState)
    (h : (hcRet resp).truthy = false) :
    healthcheck resp st = (hcRet resp, st) := by
  rw [healthcheck_eq, buildIdOf_none_of_not_truthy resp h]

/-- A truthy health-check result records a concrete build id. -/
theorem healthcheck_truthy (resp : Except Unit JSVal) (st : PercyState)
    (h : (hcRet resp).truthy = true) :
    ∃ idv, buildIdOf resp = some idv ∧
      healthcheck resp st = (.bool true, { st with buildId := idv }) := by
  have hchar : ∃ idv, buildIdOf resp = some idv ∧ hcRet resp = .bool true := by
    unfold hcRet at h
    unfold hcRet buildIdOf
    rcases resp with e | v
    · simp [JSVal.truthy] at h
    · rcases hv : v.truthy
      · simp [hv] at h
        simp [JSVal.truthy] at h
      · simp only [hv, if_true] at h ⊢
        rcases hb : getProp v "build" with e | b
        · simp only [hb] at h
          simp [JSVal.truthy] at h
        · simp only [hb] at h ⊢
          rcases hi : getProp b "id" with e | idv
          · simp only [hi] at h
            simp [JSVal.truthy] at h
          · exact ⟨idv, by simp only [hi], by simp only [hi]⟩
  obtain ⟨idv, hid, hret⟩ := hchar
  exact ⟨idv, hid, by rw [healthcheck_eq, hid, hret]⟩

/-- When the process never closes and no health check ever succeeds, the
polling loop does not terminate within any amount of fuel. -/
theorem pollLoop_none_of_all_fail (health : Nat → Except Unit JSVal)
    (hfail : ∀ j, (hcRet (health j)).truthy = false) :
    ∀ (fuel i : Nat) (st : PercyState), pollLoop health none fuel i st = none := by
  intro fuel
  induction fuel with
  | zero => intro i st; rfl
  | succ n ih =>
      intro i st
      unfold pollLoop
      rw [healthcheck_not_truthy (health i) st (hfail i)]
      simp only [hfail i, runningAfter, Bool.false_eq_true, if_false, if_true]
      exact ih (i + 1) st

/-- When the close event fires during iteration `k` and every health check up
to `k` fails, the loop exits with `false` after iteration `k`. -/
theorem pollLoop_false_of_close (health : Nat → Except Unit JSVal) (k : Nat)
    (hfail : ∀ j, j ≤ k → (hcRet (health j)).truthy = false) :
    ∀ (fuel i : Nat) (st : PercyState), i ≤ k → k + 1 - i ≤ fuel →
      pollLoop health (some k) fuel i st =
        some (false, { st with isProcessRunning := false }) := by
  intro fuel
  induction fuel with
  | zero => intro i st hik hf; omega
  | succ n ih =>
      intro i st hik hf
      unfold pollLoop
      rw [healthcheck_not_truthy (health i) st (hfail i hik)]
      simp only [hfail i hik, Bool.false_eq_true, if_false, runningAfter]
      by_cases hlt : i < k
      · simp only [hlt, decide_eq_true_eq, if_pos]
        exact ih (i + 1) st (by omega) (by omega)
      · simp [hlt]

/-- When the first truthy health check happens at iteration `k` and the close
event does not fire before `k`, the loop exits with `true` at iteration `k`,
recording that response's build id. -/
theorem pollLoop_true_of_health (health : Nat → Except Unit JSVal)
    (closeAt : Option Nat) (k : Nat)
    (hfail : ∀ j, j < k → (hcRet (health j)).truthy = false)
    (hsucc : (hcRet (health k)).truthy = true)
    (hrun : ∀ c, closeAt = some c → k ≤ c) :
    ∀ (fuel i : Nat) (st : PercyState), i ≤ k → k + 1 - i ≤ fuel →
      pollLoop health closeAt fuel i st =
        some (true, { st with buildId := (buildIdOf (health k)).getD .undefined }) := by
  intro fuel
  induction fuel with
  | zero => intro i st hik hf; omega
  | succ n ih =>
      intro i st hik hf
      unfold pollLoop
      by_cases hk : i = k
      · subst hk
        obtain ⟨idv, hid, hhc⟩ := healthcheck_truthy (health i) st hsucc
        rw [hhc]
        simp only [hid, hsucc, JSVal.truthy, if_true, Option.getD_some]
      · have hlt : i < k := by omega
        rw [healthcheck_not_truthy (health i) st (hfail i hlt)]
        simp only [hfail i hlt, Bool.false_eq_true, if_false]
        have hrunning : runningAfter closeAt i = true := by
          unfold runningAfter
          rcases hc : closeAt with _ | c
          · rfl
          · have := hrun c hc
            simp only [decide_eq_true_eq]
            omega
        simp only [hrunning, if_true]
        exact ih (i + 1) st (by omega) (by omega)

/-- Serialization never invents fields. -/
theorem jsonRTObj_length_le (fs : List (String × JSVal)) :
    (jsonRTObj fs).length ≤ fs.length := by
  induction fs with
  | nil => simp [jsonRTObj]
  | cons kv rest ih =>
      obtain ⟨k, v⟩ := kv
      unfold jsonRTObj
      rcases h : jsonRT v with _ | v'
      · simpa using Nat.le_succ_of_le ih
      · simpa using ih

/-- A field list fixed by serialization round-trip has every field value
fixed by it. -/
theorem jsonRT_of_jsonRTObj_fixed (fs : List (String × JSVal))
    (h : jsonRTObj fs = fs) :
    ∀ kv ∈ fs, jsonRT kv.2 = some kv.2 := by
  induction fs with
  | nil => intro kv hkv; cases hkv
  | cons kv₀ rest ih =>
      obtain ⟨k, v⟩ := kv₀
      unfold jsonRTObj at h
      rcases hv : jsonRT v with _ | v'
      · rw [hv] at h
        have := jsonRTObj_length_le rest
        have hlen := congrArg List.length h
        simp at hlen
        omega
      · rw [hv] at h
        have hhead : v' = v ∧ jsonRTObj rest = rest := by
          have h1 := List.cons.injEq (k, v') (jsonRTObj rest) (k, v) rest ▸ h
          constructor
          · exact congrArg Prod.snd (List.head_eq_of_cons_eq h)
          · exact List.tail_eq_of_cons_eq h
        intro kv hkv
        rcases List.mem_cons.mp hkv with heq | hmem
        · subst heq
          rw [hv, hhead.1]
        · exact ih hhead.2 kv hmem

/-- Setting a field whose value survives round-trip keeps a round-trip-fixed
field list fixed. -/
theorem jsonRTObj_setField (fs : List (String × JSVal)) (k : String) (v : JSVal)
    (hfs : jsonRTObj fs = fs) (hv : jsonRT v = some v) :
    jsonRTObj (setField fs k v) = setField fs k v := by
  induction fs with
  | nil => simp [setField, jsonRTObj, hv]
  | cons kv₀ rest ih =>
      obtain ⟨k', v'⟩ := kv₀
      have hval : jsonRT v' = some v' :=
        jsonRT_of_jsonRTObj_fixed _ hfs (k', v') (List.mem_cons_self _ _)
      have hrest : jsonRTObj rest = rest := by
        unfold jsonRTObj at hfs
        rw [hval] at hfs
        exact List.tail_eq_of_cons_eq hfs
      unfold setField
      by_cases hk : k' = k
      · simp only [hk, if_pos]
        unfold jsonRTObj
        rw [hv, hrest]
      · simp only [hk, if_neg, not_false_iff]
        unfold jsonRTObj
        rw [hval, ih hrest]

/-- Reading back the field just written. -/
theorem lookupD_setField_self (fs : List (String × JSVal)) (k : String) (v : JSVal) :
    lookupD (setField fs k v) k = v := by
  induction fs with
  | nil => simp [setField, lookupD, List.lookup]
  | cons kv₀ rest ih =>
      obtain ⟨k', v'⟩ := kv₀
      unfold setField
      by_cases hk : k' = k
      · simp [hk, lookupD, List.lookup]
      · rw [if_neg hk]
        have hbeq : (k == k') = false := beq_eq_false_iff_ne.mpr (fun h => hk h.symm)
        unfold lookupD List.lookup
        rw [hbeq]
        exact ih

/-! Claim theorems. -/

/-- Claim C1: for every option combination (any instance state) and any run
environment, if `fetchPercyToken` returns `null` then `start()` returns
`false` and no process is spawned. -/
theorem start_null_token_no_spawn (env : StartEnv) (fuel : Nat) (st : PercyState)
    (h : (fetchPercyToken env.tokenResp st).1 = .null) :
    ∃ r, start env fuel st = some r ∧ r.ret = false ∧ r.spawned = none := by
  have hstart : start env fuel st = some
      { ret := false, spawned := none
        configWritten :=
          (createPercyConfig env.writeFails env.tmpdir (fetchPercyToken env.tokenResp st).2).2.1
        final :=
          (createPercyConfig env.writeFails env.tmpdir (fetchPercyToken env.tokenResp st).2).2.2 } := by
    unfold start
    simp [h, JSVal.truthy]
  exact ⟨_, hstart, rfl, rfl⟩

/-- Claim C1 witness: a run whose token request rejects. -/
theorem start_null_token_no_spawn_witness :
    (fetchPercyToken envFail.tokenResp baseState).1 = .null ∧
    ∃ r, start envFail 2 baseState = some r ∧ r.ret = false ∧ r.spawned = none :=
  ⟨rfl, start_null_token_no_spawn envFail 2 baseState rfl⟩

/-- Claim C2: with a good token, if the process's close event fires during
iteration `k` and no health check up to `k` succeeds, `start()` terminates
and returns `false` within `k + 1` loop iterations — bounded by the process
exit, not by any timer; and conversely, when the close event never fires and
no health check succeeds, no amount of fuel makes the loop terminate. -/
theorem start_false_on_process_exit :
    (∀ (env : StartEnv) (st : PercyState) (fuel k : Nat),
        ((fetchPercyToken env.tokenResp st).1).truthy = true →
        env.closeAt = some k →
        (∀ j, j ≤ k → (hcRet (env.health j)).truthy = false) →
        k + 1 ≤ fuel →
        ∃ r, start env fuel st = some r ∧ r.ret = false) ∧
    (∀ (health : Nat → Except Unit JSVal) (fuel i : Nat) (st : PercyState),
        (∀ j, (hcRet (health j)).truthy = false) →
        pollLoop health none fuel i st = none) := by
  constructor
  · intro env st fuel k htok hclose hfail hfuel
    unfold start
    simp only [htok, Bool.not_true, Bool.false_eq_true, if_false, hclose]
    rw [pollLoop_false_of_close env.health k hfail fuel 0 _ (by omega) (by omega)]
    exact ⟨_, rfl, rfl⟩
  · intro health fuel i st hfail
    exact pollLoop_none_of_all_fail health hfail fuel i st

/-- Claim C2 witness: token granted, every health check rejects, process
exits during iteration 1. -/
theorem start_false_on_process_exit_witness :
    (∃ r, start envDies 3 baseState = some r ∧ r.ret = false) ∧
    pollLoop (fun _ => .error ()) none 5 0 baseState = none :=
  ⟨start_false_on_process_exit.1 envDies baseState 3 1 (by decide) rfl
      (fun _ _ => rfl) (by omega),
    start_false_on_process_exit.2 (fun _ => .error ()) 5 0 baseState (fun _ => rfl)⟩

/-- Claim C3: with a good token, if the health check at iteration `k` is the
first to succeed and the process has not exited before `k`, `start()` returns
`true` and the final `buildId` is the build id carried by that response. -/
theorem start_true_on_health_success (env : StartEnv) (st : PercyState) (fuel k : Nat)
    (htok : ((fetchPercyToken env.tokenResp st).1).truthy = true)
    (hfail : ∀ j, j < k → (hcRet (env.health j)).truthy = false)
    (hsucc : (hcRet (env.health k)).truthy = true)
    (hrun : ∀ c, env.closeAt = some c → k ≤ c)
    (hfuel : k + 1 ≤ fuel) :
    ∃ r idv, start env fuel st = some r ∧ r.ret = true ∧
      buildIdOf (env.health k) = some idv ∧ r.final.buildId = idv := by
  obtain ⟨idv, hid, -⟩ := healthcheck_truthy (env.health k) st hsucc
  unfold start
  simp only [htok, Bool.not_true, Bool.false_eq_true, if_false]
  rw [pollLoop_true_of_health env.health env.closeAt k hfail hsucc hrun fuel 0 _
    (by omega) (by omega)]
  refine ⟨_, idv, rfl, rfl, hid, ?_⟩
  simp [hid]

/-- Claim C3 witness: the health check succeeds immediately with build id 7. -/
theorem start_true_on_health_success_witness :
    ∃ r idv, start envScenario 1 stateScenario = some r ∧ r.ret = true ∧
      buildIdOf (envScenario.health 0) = some idv ∧ r.final.buildId = idv :=
  start_true_on_health_success envScenario stateScenario 1 0 (by decide)
    (fun j hj => absurd hj (by omega)) (by decide)
    (fun c hc => by simp [envScenario] at hc) (by omega)

/-- Claim C4 counterexample: a `percyOptions` object that already has a
`version` field — the falsy string `""` — is not serialized unchanged: the
written file parses to `version: "2"`. -/
theorem createPercyConfig_rewrites_existing_version :
    (createPercyConfig false "/tmp" stateVerFalsy).2.1
        = some (.obj [("version", .str "2")]) ∧
    some (JSVal.obj [("version", .str "2")]) ≠ some (JSVal.obj [("version", .str "")]) := by
  refine ⟨rfl, fun h => ?_⟩
  have h1 := Option.some.inj h
  have h0 := congrArg
    (fun v => match v with | JSVal.obj fs => lookupD fs "version" | _ => JSVal.undefined) h1
  simp [lookupD, List.lookup] at h0

/-- Claim C4 (amended): `createPercyConfig` resolves `null` when there are no
`percyOptions`; when the options' `version` field is absent or falsy (and the
fields are fixed by JSON round-trip) the written file parses to the input with
`version: "2"` set and all other fields preserved, and the config path is
returned; when `version` is truthy the options are serialized unchanged. -/
theorem createPercyConfig_spec (w : Bool) (t : String) (st : PercyState) :
    (st.options.percyOptions = none → createPercyConfig w t st = (.null, none, st)) ∧
    (∀ fs, st.options.percyOptions = some fs →
        (lookupD fs "version").truthy = false → jsonRTObj fs = fs →
        createPercyConfig false t st =
          (.str (percyConfigPath t),
            some (.obj (setField fs "version" (.str "2"))),
            { st with options := { st.options with
                percyOptions := some (setField fs "version" (.str "2")) } })) ∧
    (∀ fs, st.options.percyOptions = some fs →
        (lookupD fs "version").truthy = true → jsonRTObj fs = fs →
        createPercyConfig false t st =
          (.str (percyConfigPath t), some (.obj fs),
            { st with options := { st.options with percyOptions := some fs } })) := by
  refine ⟨fun h => ?_, fun fs h hv hrt => ?_, fun fs h hv hrt => ?_⟩
  · unfold createPercyConfig
    rw [h]
  · unfold createPercyConfig
    rw [h]
    simp only [hv, Bool.false_eq_true, if_false, Bool.false_eq_true]
    rw [jsonRTObj_setField fs "version" (.str "2") hrt rfl]
  · unfold createPercyConfig
    rw [h]
    simp only [hv, if_true, Bool.false_eq_true, if_false]
    rw [hrt]

/-- Claim C4 witness: no options gives `null`; the empty object gets
`version: "2"` injected; a truthy `version` is kept as is. -/
theorem createPercyConfig_spec_witness :
    createPercyConfig true "/tmp" baseState = (.null, none, baseState) ∧
    createPercyConfig false "/tmp" stateWithConfig =
      (.str "/tmp/percy.json", some (.obj [("version", .str "2")]),
        { stateWithConfig with options := { stateWithConfig.options with
            percyOptions := some [("version", .str "2")] } }) ∧
    createPercyConfig false "/tmp" stateVerTruthy =
      (.str "/tmp/percy.json",
        some (.obj [("version", .str "1"), ("deferUploads", .bool true)]),
        { stateVerTruthy with options := { stateVerTruthy.options with
            percyOptions := some [("version", .str "1"), ("deferUploads", .bool true)] } }) :=
  ⟨(createPercyConfig_spec true "/tmp" baseState).1 rfl,
    (createPercyConfig_spec false "/tmp" stateWithConfig).2.1 [] rfl rfl rfl,
    (createPercyConfig_spec false "/tmp" stateVerTruthy).2.2
      [("version", .str "1"), ("deferUploads", .bool true)] rfl (by decide) rfl⟩

/-- Claim C5: the running flag is `false` on a freshly constructed instance;
it is `true` right after the spawn write in `start()` and `false` right after
the process-close write or the `stop()`-close write, whatever happened
before; `stop()` resolves with the flag cleared.  The three events of
`PercyEvent` are the only writers of the flag in the source. -/
theorem isRunning_flag_lifecycle :
    (∀ (o : CtorOptions) (pn : Option String), isRunning (Percy.init o pn) = false) ∧
    (∀ (b : Bool) (es : List PercyEvent), runFlag b (es ++ [.spawnStart]) = true) ∧
    (∀ (b : Bool) (es : List PercyEvent), runFlag b (es ++ [.procClose]) = false) ∧
    (∀ (b : Bool) (es : List PercyEvent), runFlag b (es ++ [.stopResolve]) = false) ∧
    (∀ (c : JSVal) (st : PercyState), (stop c st).2.isProcessRunning = false) := by
  refine ⟨fun o pn => rfl, fun b es => ?_, fun b es => ?_, fun b es => ?_,
    fun c st => rfl⟩ <;>
  simp [runFlag, List.foldl_append, applyEvent]

/-- Claim C6 counterexample: when the GET resolves with the falsy body
`null`, `healthcheck()` returns JS `undefined` — neither `true` nor `false`. -/
theorem healthcheck_falsy_body_undefined :
    (healthcheck (.ok .null) baseState).1 = .undefined ∧
    JSVal.undefined ≠ .bool false ∧ JSVal.undefined ≠ .bool true := by
  refine ⟨rfl, ?_, ?_⟩ <;> exact fun h => JSVal.noConfusion h

/-- Claim C6 (amended): `healthcheck` never throws — its result is always one
of `true`, `false`, `undefined`; it returns `true` and records the build id
exactly when the request resolves with a truthy body whose `build.id` reads
succeed; it returns `false` when the request rejects or a `build.id` read
throws; it returns `undefined` when the request resolves with a falsy body. -/
theorem healthcheck_swallows_failures (resp : Except Unit JSVal) (st : PercyState) :
    ((healthcheck resp st).1 = .bool true ∨ (healthcheck resp st).1 = .bool false
        ∨ (healthcheck resp st).1 = .undefined) ∧
    (∀ e, resp = .error e → healthcheck resp st = (.bool false, st)) ∧
    (∀ v b idv, resp = .ok v → v.truthy = true → getProp v "build" = .ok b →
        getProp b "id" = .ok idv →
        healthcheck resp st = (.bool true, { st with buildId := idv })) ∧
    (∀ v e, resp = .ok v → v.truthy = true → getProp v "build" = .error e →
        healthcheck resp st = (.bool false, st)) ∧
    (∀ v b e, resp = .ok v → v.truthy = true → getProp v "build" = .ok b →
        getProp b "id" = .error e →
        healthcheck resp st = (.bool false, st)) ∧
    (∀ v, resp = .ok v → v.truthy = false → healthcheck resp st = (.undefined, st)) := by
  refine ⟨?_, fun e he => ?_, fun v b idv hr hv hb hi => ?_, fun v e hr hv hb => ?_,
    fun v b e hr hv hb hi => ?_, fun v hr hv => ?_⟩
  · unfold healthcheck
    rcases resp with e | v
    · simp
    · rcases hv : v.truthy
      · simp [hv]
      · simp only [hv, if_true]
        rcases hb : getProp v "build" with e | b
        · simp [hb]
        · rcases hi : getProp b "id" with e | idv
          · simp [hb, hi]
          · simp [hb, hi]
  · subst he; rfl
  · subst hr; unfold healthcheck; simp [hv, hb, hi]
  · subst hr; unfold healthcheck; simp [hv, hb]
  · subst hr; unfold healthcheck; simp [hv, hb, hi]
  · subst hr; unfold healthcheck; simp [hv]

/-- Claim C6 witness: concrete instances of the three kinds of outcome. -/
theorem healthcheck_swallows_failures_witness :
    healthcheck (.ok (.obj [("build", .obj [("id", .num 7)])])) baseState
        = (.bool true, { baseState with buildId := .num 7 }) ∧
    healthcheck (.error ()) baseState = (.bool false, baseState) ∧
    healthcheck (.ok (.obj [("status", .str "starting")])) baseState
        = (.bool false, baseState) ∧
    healthcheck (.ok (.bool false)) baseState = (.undefined, baseState) :=
  ⟨(healthcheck_swallows_failures _ baseState).2.2.1 _ _ _ rfl rfl rfl rfl,
    (healthcheck_swallows_failures _ baseState).2.1 () rfl,
    (healthcheck_swallows_failures _ baseState).2.2.2.2.1 _ _ () rfl rfl rfl rfl,
    (healthcheck_swallows_failures _ baseState).2.2.2.2.2 _ rfl rfl⟩

/-- Claim C7 counterexample: the token fetch yields `null`, yet a config file
is written — `createPercyConfig` runs before the `if (!token)` check, so the
config-write step is reached. -/
theorem start_null_token_still_writes_config :
    (fetchPercyToken envFail.tokenResp stateWithConfig).1 = .null ∧
    ∃ r, start envFail 1 stateWithConfig = some r ∧ r.ret = false ∧
      r.spawned = none ∧ r.configWritten = some (.obj [("version", .str "2")]) := by
  exact ⟨rfl, _, rfl, rfl, rfl, rfl⟩

/-- Claim C7 (amended): `start()` resolves the binary, fetches the token,
writes the config file, and only then aborts with `false` when the token is
falsy — without spawning, but with the config write (and its state mutation)
already performed on the post-fetch state. -/
theorem start_order_config_before_token_check (env : StartEnv) (fuel : Nat)
    (st : PercyState)
    (h : ((fetchPercyToken env.tokenResp st).1).truthy = false) :
    start env fuel st = some
      { ret := false, spawned := none
        configWritten :=
          (createPercyConfig env.writeFails env.tmpdir (fetchPercyToken env.tokenResp st).2).2.1
        final :=
          (createPercyConfig env.writeFails env.tmpdir (fetchPercyToken env.tokenResp st).2).2.2 } := by
  unfold start
  simp [h]

/-- Claim C7 witness: the amended order at a concrete failing-token run with
`percyOptions` present. -/
theorem start_order_config_before_token_check_witness :
    start envFail 1 stateWithConfig = some
      { ret := false, spawned := none
        configWritten :=
          (createPercyConfig envFail.writeFails envFail.tmpdir
            (fetchPercyToken envFail.tokenResp stateWithConfig).2).2.1
        final :=
          (createPercyConfig envFail.writeFails envFail.tmpdir
            (fetchPercyToken envFail.tokenResp stateWithConfig).2).2.2 } :=
  start_order_config_before_token_check envFail 1 stateWithConfig rfl

/-- Claim C8: when the file write fails, `createPercyConfig` resolves `null`
(no config), never rejecting: the callback calls `resolve(null)` and then —
no early return — `resolve(configPath)`, but only the first `resolve` settles
the promise, so callers observe `null`. -/
theorem createPercyConfig_write_failure_null (t : String) (st : PercyState) :
    (createPercyConfig true t st).1 = .null ∧
    (createPercyConfig true t st).2.1 = none ∧
    writeFileCallback true (percyConfigPath t) = [.null, .str (percyConfigPath t)] ∧
    promiseResult (writeFileCallback true (percyConfigPath t)) = some .null := by
  refine ⟨?_, ?_, rfl, rfl⟩ <;>
  · unfold createPercyConfig
    rcases h : st.options.percyOptions with _ | fs <;> simp [h]

/-- Claim C9: with options `app: false`, `percyCaptureMode: "auto"` and the
token endpoint answering `token: "t1", success: true,
percy_capture_mode: "auto"`, `start()` spawns with an argument list beginning
with `exec:start` (no `app:` prefix), puts `PERCY_TOKEN=t1` in the child's
environment, and the facade's `percyCaptureMode` becomes `"auto"`. -/
theorem start_scenario_exec_auto :
    ∃ r sc, start envScenario 1 stateScenario = some r ∧ r.spawned = some sc ∧
      sc.args.head? = some "exec:start" ∧ sc.envToken = .str "t1" ∧
      r.final.percyCaptureMode = .str "auto" ∧ r.ret = true := by
  exact ⟨_, _, rfl, rfl, rfl, rfl, rfl, rfl⟩

/-- Claim C10: `createPercyConfig` writes `version: "2"` into the very object
held by `this._options.percyOptions` (not a copy): after the call the
caller-visible options carry the field, and a second call — whatever its
write outcome or temp dir — sees it and leaves the object unchanged. -/
theorem createPercyConfig_mutates_in_place (w w' : Bool) (t t' : String)
    (st : PercyState) (fs : List (String × JSVal))
    (h : st.options.percyOptions = some fs)
    (hv : (lookupD fs "version").truthy = false) :
    ((createPercyConfig w t st).2.2).options.percyOptions
        = some (setField fs "version" (.str "2")) ∧
    ((createPercyConfig w' t' (createPercyConfig w t st).2.2).2.2).options.percyOptions
        = some (setField fs "version" (.str "2")) := by
  have h1 : (createPercyConfig w t st).2.2 =
      { st with options := { st.options with
          percyOptions := some (setField fs "version" (.str "2")) } } := by
    unfold createPercyConfig
    rw [h]
    simp only [hv, Bool.false_eq_true, if_false]
    rcases w <;> rfl
  have hv2 : (lookupD (setField fs "version" (.str "2")) "version").truthy = true := by
    rw [lookupD_setField_self]
    rfl
  refine ⟨by rw [h1], ?_⟩
  rw [h1]
  unfold createPercyConfig
  simp only [hv2, if_true]
  rcases w' <;> rfl

/-- Claim C10 witness: the empty options object gains `version: "2"` and the
mutation persists across a second call. -/
theorem createPercyConfig_mutates_in_place_witness :
    ((createPercyConfig false "/tmp" stateWithConfig).2.2).options.percyOptions
        = some [("version", .str "2")] ∧
    ((createPercyConfig true "/var/tmp"
        (createPercyConfig false "/tmp" stateWithConfig).2.2).2.2).options.percyOptions
        = some [("version", .str "2")] :=
  createPercyConfig_mutates_in_place false true "/tmp" "/var/tmp"
    stateWithConfig [] rfl rfl

end PercyModel
